import Mathlib

/-!
Verification of the TODO CRUD API (`src/main.py`) against its specification.

The handlers in `src/main.py` are embedded shallowly: the SQLAlchemy-backed
database session becomes an explicit `DB` state, a handler becomes a pure
function from its request data and the acting user's record to a response
together with the post-state.  A raised `HTTPException` (or a pydantic
validation failure) is an `ApiError` response paired with the unchanged
pre-state, since the Python handlers raise before any mutation.
-/

set_option autoImplicit false

namespace TodoApi

/-- A row of the `todos` table (`TodoModel` in `database.py`): id, title,
optional description, completion flag, creation timestamp and owning user id.
Timestamps are abstracted to `Nat`. -/
structure TodoModel where
  id : Nat
  title : String
  description : Option String
  completed : Bool
  created_at : Nat
  user_id : Nat
deriving Repr, DecidableEq

/-- A row of the `users` table (`UserModel` in `database.py`). -/
structure UserModel where
  id : Nat
  username : String
  email : String
  hashed_password : String
deriving Repr, DecidableEq

/-- The database state seen by one request: the two tables plus the store's
id generators. -/
structure DB where
  todos : List TodoModel
  next_todo_id : Nat
  users : List UserModel
  next_user_id : Nat
deriving Repr, DecidableEq

/-- Error taxonomy of the API (section 7 of the spec): `Conflict` is the 400
raised by `register`, `NotFound` the 404 on task lookups, `ValidationError`
a pydantic request-body rejection, `Unauthenticated` a 401. -/
inductive ApiError where
  | NotFound
  | Conflict (detail : String)
  | ValidationError
  | Unauthenticated
deriving Repr, DecidableEq

/-- Raw JSON body of a task request, before pydantic validation.  Every field
may be absent; an `id` field may be supplied by the client even though
`TodoBase` does not declare it. -/
structure TodoBody where
  id : Option Nat := none
  title : Option String := none
  description : Option String := none
  completed : Option Bool := none
deriving Repr, DecidableEq

/-- `TodoBase` from `src/main.py`: `title: str`, `description: str = None`,
`completed: bool = False`. -/
structure TodoBase where
  title : String
  description : Option String
  completed : Bool
deriving Repr, DecidableEq

/-- Pydantic validation of a request body against `TodoBase`: `title` is a
required field (absence is a validation error; any string, empty included,
passes `title: str`), `description` defaults to `None`, `completed` to
`False`, and an undeclared `id` field is ignored. -/
def validateTodoBase (body : TodoBody) : Except ApiError TodoBase :=
  match body.title with
  | none => .error .ValidationError
  | some t => .ok ⟨t, body.description, body.completed.getD false⟩

/-- Modelled from the spec: `database.py` is imported by `src/main.py` but is
not under `src/`.  Per the spec's data model, the store assigns the task id
("unique, assigned sequentially by the store") and `created_at` ("set once at
creation"); `db.add` appends the row. -/
def DB.insertTodo (db : DB) (title : String) (description : Option String)
    (completed : Bool) (user_id : Nat) (now : Nat) : TodoModel × DB :=
  let t : TodoModel :=
    { id := db.next_todo_id, title := title, description := description,
      completed := completed, created_at := now, user_id := user_id }
  (t, { db with todos := db.todos ++ [t], next_todo_id := db.next_todo_id + 1 })

/-- Modelled from the spec: user rows are stored by `database.py` (not under
`src/`) with a store-assigned unique id. -/
def DB.insertUser (db : DB) (username email hashed_password : String) :
    UserModel × DB :=
  let u : UserModel :=
    { id := db.next_user_id, username := username, email := email,
      hashed_password := hashed_password }
  (u, { db with users := db.users ++ [u], next_user_id := db.next_user_id + 1 })

/-- Modelled from the spec: `get_password_hash` lives in `auth.py` (not under
`src/`); the spec only requires that the password is one-way hashed before
storage.  The hash is abstracted to an injective tagging. -/
def get_password_hash (password : String) : String :=
  "bcrypt$" ++ password

/-- `UserCreate` from `auth.py`'s pydantic models: the registration body. -/
structure UserCreate where
  username : String
  email : String
  password : String
deriving Repr, DecidableEq

/-- The SQLAlchemy query used by every per-task handler:
`db.query(TodoModel).filter(TodoModel.id == todo_id, TodoModel.user_id ==
current_user.id).first()`. -/
def findTodo (db : DB) (todo_id : Nat) (uid : Nat) : Option TodoModel :=
  db.todos.find? (fun t => t.id == todo_id && t.user_id == uid)

/-- In-place mutation of the row object found by `.first()` followed by
`commit`: the first matching row is replaced, the rest of the table is
untouched. -/
def replaceFirst (p : TodoModel → Bool) (t' : TodoModel) :
    List TodoModel → List TodoModel
  | [] => []
  | t :: ts => if p t then t' :: ts else t :: replaceFirst p t' ts

/-- `db.delete(todo)` on the row found by `.first()`: the first matching row
is removed. -/
def eraseFirst (p : TodoModel → Bool) : List TodoModel → List TodoModel
  | [] => []
  | t :: ts => if p t then ts else t :: eraseFirst p ts

/-- `register` (`src/main.py` lines 42-65): reject a duplicate username, then
a duplicate email, with HTTP 400; otherwise hash the password and store the
new user. -/
def register (user : UserCreate) (db : DB) : Except ApiError UserModel × DB :=
  if (db.users.find? (fun u => u.username == user.username)).isSome then
    (.error (.Conflict "Username already registered"), db)
  else if (db.users.find? (fun u => u.email == user.email)).isSome then
    (.error (.Conflict "Email already registered"), db)
  else
    let (nu, db') := db.insertUser user.username user.email
      (get_password_hash user.password)
    (.ok nu, db')

/-- `create_todo` (`src/main.py` lines 89-105): build a `TodoModel` from the
validated body's title/description/completed and the acting user's id, and
let the store assign id and `created_at`. -/
def create_todo (todo : TodoBase) (db : DB) (current_user : UserModel)
    (now : Nat) : TodoModel × DB :=
  db.insertTodo todo.title todo.description todo.completed current_user.id now

/-- `POST /todos` including pydantic validation of the raw body. -/
def post_todos (body : TodoBody) (db : DB) (current_user : UserModel)
    (now : Nat) : Except ApiError TodoModel × DB :=
  match validateTodoBase body with
  | .error e => (.error e, db)
  | .ok base =>
      let (t, db') := create_todo base db current_user now
      (.ok t, db')

/-- `get_all_todos` (`src/main.py` lines 108-115): all rows with
`user_id == current_user.id`. -/
def get_all_todos (db : DB) (current_user : UserModel) : List TodoModel :=
  db.todos.filter (fun t => t.user_id == current_user.id)

/-- `get_todo` (`src/main.py` lines 117-130): look the task up scoped to the
acting user; 404 when absent. -/
def get_todo (todo_id : Nat) (db : DB) (current_user : UserModel) :
    Except ApiError TodoModel × DB :=
  match findTodo db todo_id current_user.id with
  | none => (.error .NotFound, db)
  | some t => (.ok t, db)

/-- `update_todo` (`src/main.py` lines 133-154): find the owned task, assign
`title`, `description` and `completed` from the validated body, commit. -/
def update_todo (todo_id : Nat) (todo_update : TodoBase) (db : DB)
    (current_user : UserModel) : Except ApiError TodoModel × DB :=
  match findTodo db todo_id current_user.id with
  | none => (.error .NotFound, db)
  | some t =>
      let t' := { t with title := todo_update.title,
                         description := todo_update.description,
                         completed := todo_update.completed }
      let l' := replaceFirst
        (fun u => u.id == todo_id && u.user_id == current_user.id) t' db.todos
      (.ok t', { db with todos := l' })

/-- `PUT /todos/id` including pydantic validation of the raw body. -/
def put_todos (todo_id : Nat) (body : TodoBody) (db : DB)
    (current_user : UserModel) : Except ApiError TodoModel × DB :=
  match validateTodoBase body with
  | .error e => (.error e, db)
  | .ok base => update_todo todo_id base db current_user

/-- `toggle_todo` (`src/main.py` lines 156-173): find the owned task and set
`completed = not completed`. -/
def toggle_todo (todo_id : Nat) (db : DB) (current_user : UserModel) :
    Except ApiError TodoModel × DB :=
  match findTodo db todo_id current_user.id with
  | none => (.error .NotFound, db)
  | some t =>
      let t' := { t with completed := !t.completed }
      let l' := replaceFirst
        (fun u => u.id == todo_id && u.user_id == current_user.id) t' db.todos
      (.ok t', { db with todos := l' })

/-- Response of `DELETE /todos/id`: a message plus the deleted record. -/
structure DeleteResponse where
  message : String
  deleted_todo : TodoModel
deriving Repr, DecidableEq

/-- `delete_todo` (`src/main.py` lines 176-192): find the owned task, remove
it, and return the prior record. -/
def delete_todo (todo_id : Nat) (db : DB) (current_user : UserModel) :
    Except ApiError DeleteResponse × DB :=
  match findTodo db todo_id current_user.id with
  | none => (.error .NotFound, db)
  | some t =>
      let l' := eraseFirst
        (fun u => u.id == todo_id && u.user_id == current_user.id) db.todos
      (.ok { message := "TODO deleted successfully", deleted_todo := t },
       { db with todos := l' })

/-- Response of `DELETE /todos`: only a message, nothing else. -/
structure ClearResponse where
  message : String
deriving Repr, DecidableEq

/-- `clear_all_todos` (`src/main.py` lines 216-224): bulk-delete every row
with `user_id == current_user.id` and answer with a fixed message. -/
def clear_all_todos (db : DB) (current_user : UserModel) :
    ClearResponse × DB :=
  ({ message := "All TODOs cleared" },
   { db with todos := db.todos.filter (fun t => !(t.user_id == current_user.id)) })

/-- Well-formedness the store guarantees: task ids are unique and below the
generator (spec: "id (unique, assigned sequentially by the store)"). -/
def DB.wf (db : DB) : Prop :=
  (db.todos.map TodoModel.id).Nodup ∧ ∀ t ∈ db.todos, t.id < db.next_todo_id

instance (db : DB) : Decidable db.wf := by
  unfold DB.wf
  exact instDecidableAnd

/-! ### Lemmas about the row lookup and the list surgeries -/

lemma eq_of_mem_of_id_eq {l : List TodoModel}
    (hnd : (l.map TodoModel.id).Nodup) {t u : TodoModel}
    (ht : t ∈ l) (hu : u ∈ l) (hid : t.id = u.id) : t = u :=
  List.inj_on_of_nodup_map hnd ht hu hid

lemma find?_todo_eq_none {l : List TodoModel} {tid uid : Nat}
    (h : ∀ u ∈ l, u.id = tid → u.user_id ≠ uid) :
    l.find? (fun u => u.id == tid && u.user_id == uid) = none := by
  rw [List.find?_eq_none]
  intro u hu
  simp only [Bool.and_eq_true, beq_iff_eq, not_and]
  exact fun hid => h u hu hid

lemma find?_todo_eq_some {l : List TodoModel}
    (hnd : (l.map TodoModel.id).Nodup) {t : TodoModel} (hmem : t ∈ l) :
    l.find? (fun u => u.id == t.id && u.user_id == t.user_id) = some t := by
  induction l with
  | nil => cases hmem
  | cons a tl ih =>
      rw [List.map_cons, List.nodup_cons] at hnd
      by_cases hpa : (a.id == t.id && a.user_id == t.user_id) = true
      · have h2 : a.id = t.id ∧ a.user_id = t.user_id := by simpa using hpa
        have hat : a = t := by
          rcases List.mem_cons.mp hmem with h | h
          · exact h.symm
          · have hmap : t.id ∈ tl.map TodoModel.id :=
              List.mem_map_of_mem TodoModel.id h
            rw [← h2.1] at hmap
            exact absurd hmap hnd.1
        subst hat
        exact List.find?_cons_of_pos tl hpa
      · have htl : t ∈ tl := by
          rcases List.mem_cons.mp hmem with h | h
          · exact absurd (by simp [h]) hpa
          · exact h
        exact (List.find?_cons_of_neg tl hpa).trans (ih hnd.2 htl)

lemma find?_append_left_none {p : TodoModel → Bool} {l1 l2 : List TodoModel}
    (h : ∀ x ∈ l1, p x = false) :
    (l1 ++ l2).find? p = l2.find? p := by
  induction l1 with
  | nil => rfl
  | cons a tl ih =>
      rw [List.cons_append]
      have hna : ¬(p a = true) := by simp [h a (List.mem_cons_self a tl)]
      exact (List.find?_cons_of_neg (tl ++ l2) hna).trans
        (ih fun x hx => h x (List.mem_cons_of_mem a hx))

lemma mem_replaceFirst_of_not_match {p : TodoModel → Bool} {t' u : TodoModel}
    {l : List TodoModel} (hu : u ∈ l) (hpu : p u = false) :
    u ∈ replaceFirst p t' l := by
  induction l with
  | nil => cases hu
  | cons a tl ih =>
      rcases List.mem_cons.mp hu with h | h
      · subst h
        rw [replaceFirst, if_neg (by simp [hpu])]
        exact List.mem_cons_self u (replaceFirst p t' tl)
      · rw [replaceFirst]
        by_cases hpa : p a = true
        · rw [if_pos hpa]
          exact List.mem_cons_of_mem t' h
        · rw [if_neg hpa]
          exact List.mem_cons_of_mem a (ih h)

lemma mem_replaceFirst_self {p : TodoModel → Bool} {t' : TodoModel}
    {l : List TodoModel} (h : ∃ u ∈ l, p u = true) :
    t' ∈ replaceFirst p t' l := by
  induction l with
  | nil => rcases h with ⟨u, hu, _⟩; cases hu
  | cons a tl ih =>
      rw [replaceFirst]
      by_cases hpa : p a = true
      · rw [if_pos hpa]; exact List.mem_cons_self t' tl
      · rw [if_neg hpa]
        rcases h with ⟨u, hu, hpu⟩
        rcases List.mem_cons.mp hu with rfl | hmem
        · exact absurd hpu hpa
        · exact List.mem_cons_of_mem a (ih ⟨u, hmem, hpu⟩)

lemma find?_replaceFirst {p : TodoModel → Bool} {t t' : TodoModel}
    {l : List TodoModel} (hfind : l.find? p = some t) (hpt : p t' = true) :
    (replaceFirst p t' l).find? p = some t' := by
  induction l with
  | nil => cases hfind
  | cons a tl ih =>
      by_cases hpa : p a = true
      · rw [replaceFirst, if_pos hpa]
        exact List.find?_cons_of_pos tl hpt
      · have hfind' : tl.find? p = some t :=
          (List.find?_cons_of_neg tl hpa).symm.trans hfind
        rw [replaceFirst, if_neg hpa]
        exact (List.find?_cons_of_neg (replaceFirst p t' tl) hpa).trans
          (ih hfind')

lemma replaceFirst_find?_self {p : TodoModel → Bool} {t : TodoModel}
    {l : List TodoModel} (hfind : l.find? p = some t) :
    replaceFirst p t l = l := by
  induction l with
  | nil => cases hfind
  | cons a tl ih =>
      by_cases hpa : p a = true
      · have hsome : some a = some t :=
          (List.find?_cons_of_pos tl hpa).symm.trans hfind
        injection hsome with hat
        rw [replaceFirst, if_pos hpa, hat]
      · have hfind' : tl.find? p = some t :=
          (List.find?_cons_of_neg tl hpa).symm.trans hfind
        rw [replaceFirst, if_neg hpa, ih hfind']

lemma replaceFirst_replaceFirst {p : TodoModel → Bool} {t₁ t₂ : TodoModel}
    {l : List TodoModel} (h : p t₁ = true) :
    replaceFirst p t₂ (replaceFirst p t₁ l) = replaceFirst p t₂ l := by
  induction l with
  | nil => rfl
  | cons a tl ih =>
      by_cases hpa : p a = true
      · rw [replaceFirst, if_pos hpa, replaceFirst, if_pos h,
          replaceFirst, if_pos hpa]
      · rw [replaceFirst, if_neg hpa, replaceFirst, if_neg hpa,
          replaceFirst, if_neg hpa, ih]

lemma eraseFirst_no_match {l : List TodoModel} {tid : Nat}
    {p : TodoModel → Bool} (hnd : (l.map TodoModel.id).Nodup)
    (hid : ∀ u, p u = true → u.id = tid) :
    ∀ u ∈ eraseFirst p l, p u = false := by
  induction l with
  | nil => intro u hu; cases hu
  | cons a tl ih =>
      rw [List.map_cons, List.nodup_cons] at hnd
      intro u hu
      by_cases hpa : p a = true
      · rw [eraseFirst, if_pos hpa] at hu
        by_contra hpu
        rw [Bool.not_eq_false] at hpu
        have hmap : u.id ∈ tl.map TodoModel.id :=
          List.mem_map_of_mem TodoModel.id hu
        rw [hid u hpu, ← hid a hpa] at hmap
        exact hnd.1 hmap
      · rw [eraseFirst, if_neg hpa] at hu
        rcases List.mem_cons.mp hu with rfl | hmem
        · simpa using hpa
        · exact ih hnd.2 u hmem

lemma mem_eraseFirst_of_not_match {p : TodoModel → Bool} {u : TodoModel}
    {l : List TodoModel} (hu : u ∈ l) (hpu : p u = false) :
    u ∈ eraseFirst p l := by
  induction l with
  | nil => cases hu
  | cons a tl ih =>
      rcases List.mem_cons.mp hu with rfl | hmem
      · rw [eraseFirst, if_neg (by simp [hpu])]
        exact List.mem_cons_self u (eraseFirst p tl)
      · rw [eraseFirst]
        by_cases hpa : p a = true
        · rw [if_pos hpa]; exact hmem
        · rw [if_neg hpa]; exact List.mem_cons_of_mem a (ih hmem)

lemma clear_all_fixpoint (db : DB) (cu : UserModel)
    (h : ∀ t ∈ db.todos, t.user_id ≠ cu.id) :
    clear_all_todos db cu = ({ message := "All TODOs cleared" }, db) := by
  rw [clear_all_todos]
  have hfix : db.todos.filter (fun t => !(t.user_id == cu.id)) = db.todos :=
    List.filter_eq_self.mpr fun t ht => by simpa using h t ht
  rw [hfix]

/-! ### Concrete fixtures used by the witnesses -/

def alice : UserModel := ⟨1, "alice", "alice@x.com", "bcrypt$pw1"⟩

def bob : UserModel := ⟨2, "bob", "bob@x.com", "bcrypt$pw2"⟩

def task1 : TodoModel := ⟨1, "buy milk", none, false, 10, 1⟩

def task2 : TodoModel := ⟨2, "walk dog", some "park", true, 11, 1⟩

def dbSample : DB := ⟨[task1, task2], 3, [alice, bob], 3⟩

/-! ### The claims -/

/-- C1: for an authenticated user B and a task id owned by a different user
A, `get`, `update`, `toggle` and `delete` invoked as B on that id all fail
with `NotFound` (the same outcome as a nonexistent id, never `Forbidden` —
the error taxonomy has no such case), the database state is unchanged, and
`list` invoked by B never returns A's task. -/
theorem isolation_cross_user (db : DB) (hwf : db.wf) (tA : TodoModel)
    (hmem : tA ∈ db.todos) (B : UserModel) (hB : tA.user_id ≠ B.id)
    (upd : TodoBase) :
    get_todo tA.id db B = (.error .NotFound, db) ∧
    update_todo tA.id upd db B = (.error .NotFound, db) ∧
    toggle_todo tA.id db B = (.error .NotFound, db) ∧
    delete_todo tA.id db B = (.error .NotFound, db) ∧
    tA ∉ get_all_todos db B := by
  have hnone : findTodo db tA.id B.id = none := by
    unfold findTodo
    apply find?_todo_eq_none
    intro u hu hid
    have huA : u = tA := eq_of_mem_of_id_eq hwf.1 hu hmem hid
    rw [huA]
    exact hB
  refine ⟨?_, ?_, ?_, ?_, ?_⟩
  · rw [get_todo, hnone]
  · rw [update_todo, hnone]
  · rw [toggle_todo, hnone]
  · rw [delete_todo, hnone]
  · rw [get_all_todos, List.mem_filter]
    simp [hB]

theorem isolation_cross_user_witness :
    (dbSample.wf ∧ task1 ∈ dbSample.todos ∧ task1.user_id ≠ bob.id) ∧
    (get_todo task1.id dbSample bob = (.error .NotFound, dbSample) ∧
     update_todo task1.id ⟨"x", none, false⟩ dbSample bob =
       (.error .NotFound, dbSample) ∧
     toggle_todo task1.id dbSample bob = (.error .NotFound, dbSample) ∧
     delete_todo task1.id dbSample bob = (.error .NotFound, dbSample) ∧
     task1 ∉ get_all_todos dbSample bob) :=
  ⟨⟨by decide, by decide, by decide⟩,
   isolation_cross_user dbSample (by decide) task1 (by decide) bob (by decide)
     ⟨"x", none, false⟩⟩

/-- C2: an authenticated create assigns a fresh id never held by an existing
task and sets `created_at` to the current time; any client-supplied `id` in
the request body is ignored (the response and post-state are identical with
or without it); and a subsequent `get` on the new id by the same user
returns a task whose title, description and completed equal the values
given at creation. -/
theorem create_fresh_then_get (body : TodoBody) (title : String)
    (htitle : body.title = some title) (db : DB) (hwf : db.wf)
    (cu : UserModel) (now : Nat) (other : Option Nat) :
    ∃ t db',
      post_todos body db cu now = (.ok t, db') ∧
      post_todos { body with id := other } db cu now = (.ok t, db') ∧
      (∀ u ∈ db.todos, u.id ≠ t.id) ∧
      t.created_at = now ∧ t.title = title ∧
      t.description = body.description ∧
      t.completed = body.completed.getD false ∧
      get_todo t.id db' cu = (.ok t, db') := by
  set t : TodoModel :=
    ⟨db.next_todo_id, title, body.description, body.completed.getD false,
      now, cu.id⟩ with ht
  set db' : DB :=
    { db with todos := db.todos ++ [t], next_todo_id := db.next_todo_id + 1 }
    with hdb'
  have hpost : post_todos body db cu now = (.ok t, db') := by
    rw [post_todos, validateTodoBase, htitle]
    rfl
  have hfresh : ∀ u ∈ db.todos, u.id ≠ t.id :=
    fun u hu => Nat.ne_of_lt (hwf.2 u hu)
  refine ⟨t, db', hpost, ?_, hfresh, rfl, rfl, rfl, rfl, ?_⟩
  · rw [post_todos, validateTodoBase]
    rw [show ({ body with id := other } : TodoBody).title = some title
      from htitle]
    rfl
  · have hfind : findTodo db' t.id cu.id = some t := by
      unfold findTodo
      have hdbt : db'.todos = db.todos ++ [t] := rfl
      rw [hdbt, find?_append_left_none]
      · simp
      · intro x hx
        simp [hfresh x hx]
    rw [get_todo, hfind]

theorem create_fresh_then_get_witness :
    (({ title := some "read", description := some "a book",
        completed := some true } : TodoBody).title = some "read" ∧
      dbSample.wf) ∧
    ∃ t db',
      post_todos
        { title := some "read", description := some "a book",
          completed := some true } dbSample alice 42 = (.ok t, db') ∧
      post_todos
        { id := some 99, title := some "read", description := some "a book",
          completed := some true } dbSample alice 42 = (.ok t, db') ∧
      (∀ u ∈ dbSample.todos, u.id ≠ t.id) ∧
      t.created_at = 42 ∧ t.title = "read" ∧
      t.description = some "a book" ∧
      t.completed = (some true).getD false ∧
      get_todo t.id db' alice = (.ok t, db') :=
  ⟨⟨rfl, by decide⟩,
   create_fresh_then_get
     { title := some "read", description := some "a book",
       completed := some true } "read" rfl dbSample (by decide) alice 42
     (some 99)⟩

/-- C3: on an owned task, `update` replaces exactly the three mutable
fields `title`, `description` and `completed` with the given values while
the task keeps its `id` and `created_at` (and its owner), every task with a
different id is untouched, and when no task with that id is owned by the
acting identity the call fails with `NotFound` leaving the state
unchanged. -/
theorem update_full_replace (tid : Nat) (upd : TodoBase) (db : DB)
    (cu : UserModel) (hwf : db.wf) :
    (∀ t ∈ db.todos, t.id = tid → t.user_id = cu.id →
      ∃ db', update_todo tid upd db cu =
          (.ok ⟨tid, upd.title, upd.description, upd.completed,
             t.created_at, t.user_id⟩, db') ∧
        ⟨tid, upd.title, upd.description, upd.completed,
           t.created_at, t.user_id⟩ ∈ db'.todos ∧
        (∀ u ∈ db.todos, u.id ≠ tid → u ∈ db'.todos) ∧
        db'.next_todo_id = db.next_todo_id ∧ db'.users = db.users) ∧
    ((∀ t ∈ db.todos, t.id = tid → t.user_id ≠ cu.id) →
      update_todo tid upd db cu = (.error .NotFound, db)) := by
  constructor
  · intro t hmem hid huser
    subst hid
    have hfind : findTodo db t.id cu.id = some t := by
      unfold findTodo
      rw [← huser]
      exact find?_todo_eq_some hwf.1 hmem
    set l' := replaceFirst (fun u => u.id == t.id && u.user_id == cu.id)
      (⟨t.id, upd.title, upd.description, upd.completed, t.created_at,
        t.user_id⟩ : TodoModel) db.todos with hl'
    refine ⟨{ db with todos := l' }, ?_, ?_, ?_, rfl, rfl⟩
    · rw [update_todo, hfind]
    · exact mem_replaceFirst_self ⟨t, hmem, by simp [huser]⟩
    · intro u hu hne
      exact mem_replaceFirst_of_not_match hu (by simp [hne])
  · intro hnone
    have hfind : findTodo db tid cu.id = none := by
      unfold findTodo
      exact find?_todo_eq_none hnone
    rw [update_todo, hfind]

theorem update_full_replace_witness :
    (dbSample.wf ∧ task2 ∈ dbSample.todos ∧ task2.id = 2 ∧
      task2.user_id = alice.id) ∧
    ∃ db', update_todo 2 ⟨"new", some "d", false⟩ dbSample alice =
        (.ok ⟨2, "new", some "d", false, task2.created_at,
           task2.user_id⟩, db') ∧
      ⟨2, "new", some "d", false, task2.created_at, task2.user_id⟩ ∈
        db'.todos ∧
      (∀ u ∈ dbSample.todos, u.id ≠ 2 → u ∈ db'.todos) ∧
      db'.next_todo_id = dbSample.next_todo_id ∧ db'.users = dbSample.users :=
  ⟨⟨by decide, by decide, by decide, by decide⟩,
   (update_full_replace 2 ⟨"new", some "d", false⟩ dbSample alice
       (by decide)).1 task2 (by decide) (by decide) (by decide)⟩

/-- C10: a PUT whose body carries only `title` (the optional fields are
omitted) does not preserve the task's previous `description` and
`completed`: pydantic fills in the `TodoBase` defaults, so the stored task
ends with `description = none` and `completed = false`. -/
theorem put_omitted_fields_reset (tid : Nat) (s : String) (db : DB)
    (cu : UserModel) (hwf : db.wf) (t : TodoModel) (hmem : t ∈ db.todos)
    (hid : t.id = tid) (huser : t.user_id = cu.id) :
    ∃ db', put_todos tid { title := some s } db cu =
        (.ok ⟨tid, s, none, false, t.created_at, t.user_id⟩, db') ∧
      ⟨tid, s, none, false, t.created_at, t.user_id⟩ ∈ db'.todos := by
  subst hid
  have hfind : findTodo db t.id cu.id = some t := by
    unfold findTodo
    rw [← huser]
    exact find?_todo_eq_some hwf.1 hmem
  set l' := replaceFirst (fun u => u.id == t.id && u.user_id == cu.id)
    (⟨t.id, s, none, false, t.created_at, t.user_id⟩ : TodoModel) db.todos
    with hl'
  refine ⟨{ db with todos := l' }, ?_, ?_⟩
  · show update_todo t.id ⟨s, none, false⟩ db cu = _
    rw [update_todo, hfind]
  · exact mem_replaceFirst_self ⟨t, hmem, by simp [huser]⟩

theorem put_omitted_fields_reset_witness :
    (dbSample.wf ∧ task2 ∈ dbSample.todos ∧ task2.id = 2 ∧
      task2.user_id = alice.id ∧ task2.description = some "park" ∧
      task2.completed = true) ∧
    ∃ db', put_todos 2 { title := some "t2" } dbSample alice =
        (.ok ⟨2, "t2", none, false, task2.created_at, task2.user_id⟩, db') ∧
      ⟨2, "t2", none, false, task2.created_at, task2.user_id⟩ ∈ db'.todos :=
  ⟨⟨by decide, by decide, by decide, by decide, by decide, by decide⟩,
   put_omitted_fields_reset 2 "t2" dbSample alice (by decide) task2
     (by decide) (by decide) (by decide)⟩

/-- C4: on an owned task, `toggle` flips `completed` to its negation and
leaves every other field unchanged, and it is an involution: toggling the
same id again returns the task — and the whole database state — to exactly
what they were before the first toggle. -/
theorem toggle_involution (db : DB) (hwf : db.wf) (t : TodoModel)
    (hmem : t ∈ db.todos) (cu : UserModel) (huser : t.user_id = cu.id) :
    ∃ db1, toggle_todo t.id db cu =
        (.ok ⟨t.id, t.title, t.description, !t.completed, t.created_at,
           t.user_id⟩, db1) ∧
      toggle_todo t.id db1 cu = (.ok t, db) := by
  have hfind : findTodo db t.id cu.id = some t := by
    unfold findTodo
    rw [← huser]
    exact find?_todo_eq_some hwf.1 hmem
  set p : TodoModel → Bool := fun u => u.id == t.id && u.user_id == cu.id
    with hp
  set t1 : TodoModel :=
    ⟨t.id, t.title, t.description, !t.completed, t.created_at, t.user_id⟩
    with ht1
  set l1 := replaceFirst p t1 db.todos with hl1
  refine ⟨{ db with todos := l1 }, ?_, ?_⟩
  · rw [toggle_todo, hfind]
  · have hfind1 : findTodo { db with todos := l1 } t.id cu.id = some t1 := by
      unfold findTodo
      exact find?_replaceFirst hfind (by simp [hp, ht1, huser])
    set t2 : TodoModel :=
      ⟨t1.id, t1.title, t1.description, !t1.completed, t1.created_at,
        t1.user_id⟩ with ht2
    have h2 : toggle_todo t.id { db with todos := l1 } cu =
        (.ok t2, { db with todos := replaceFirst p t2 l1 }) := by
      rw [toggle_todo, hfind1]
    have ht2t : t2 = t := by
      rw [ht2, ht1]
      simp
    have hfind' : db.todos.find? p = some t := hfind
    have hback : replaceFirst p t l1 = db.todos := by
      rw [hl1, replaceFirst_replaceFirst (by simp [hp, ht1, huser]),
        replaceFirst_find?_self hfind']
    calc toggle_todo t.id { db with todos := l1 } cu
        = (.ok t2, { db with todos := replaceFirst p t2 l1 }) := h2
      _ = (.ok t, db) := by rw [ht2t, hback]

theorem toggle_involution_witness :
    (dbSample.wf ∧ task2 ∈ dbSample.todos ∧ task2.user_id = alice.id) ∧
    ∃ db1, toggle_todo task2.id dbSample alice =
        (.ok ⟨task2.id, task2.title, task2.description, !task2.completed,
           task2.created_at, task2.user_id⟩, db1) ∧
      toggle_todo task2.id db1 alice = (.ok task2, dbSample) :=
  ⟨⟨by decide, by decide, by decide⟩,
   toggle_involution dbSample (by decide) task2 (by decide) alice
     (by decide)⟩

/-- C5: on an owned task, `delete` succeeds and returns the prior record;
afterwards a `get` on the same id by the same user fails with `NotFound`,
and so does a second `delete` on that id, both leaving the post-delete
state unchanged. -/
theorem delete_then_notfound (db : DB) (hwf : db.wf) (t : TodoModel)
    (hmem : t ∈ db.todos) (cu : UserModel) (huser : t.user_id = cu.id) :
    ∃ db', delete_todo t.id db cu =
        (.ok ⟨"TODO deleted successfully", t⟩, db') ∧
      get_todo t.id db' cu = (.error .NotFound, db') ∧
      delete_todo t.id db' cu = (.error .NotFound, db') := by
  have hfind : findTodo db t.id cu.id = some t := by
    unfold findTodo
    rw [← huser]
    exact find?_todo_eq_some hwf.1 hmem
  set p : TodoModel → Bool := fun u => u.id == t.id && u.user_id == cu.id
    with hp
  set l' := eraseFirst p db.todos with hl'
  have hgone : findTodo { db with todos := l' } t.id cu.id = none := by
    unfold findTodo
    rw [List.find?_eq_none]
    intro u hu
    have hidp : ∀ v : TodoModel, p v = true → v.id = t.id := by
      intro v hv
      have hv' : v.id = t.id ∧ v.user_id = cu.id := by simpa [hp] using hv
      exact hv'.1
    have hnm := @eraseFirst_no_match db.todos t.id p hwf.1 hidp u hu
    simp only [hp] at hnm
    simp [hnm]
  refine ⟨{ db with todos := l' }, ?_, ?_, ?_⟩
  · rw [delete_todo, hfind]
  · rw [get_todo, hgone]
  · rw [delete_todo, hgone]

theorem delete_then_notfound_witness :
    (dbSample.wf ∧ task1 ∈ dbSample.todos ∧ task1.user_id = alice.id) ∧
    ∃ db', delete_todo task1.id dbSample alice =
        (.ok ⟨"TODO deleted successfully", task1⟩, db') ∧
      get_todo task1.id db' alice = (.error .NotFound, db') ∧
      delete_todo task1.id db' alice = (.error .NotFound, db') :=
  ⟨⟨by decide, by decide, by decide⟩,
   delete_then_notfound dbSample (by decide) task1 (by decide) alice
     (by decide)⟩

/-- C6: `clear_all` removes all of the caller's tasks (none of the caller's
tasks survive), only the caller's tasks (every other user's task survives
and nothing new appears), and it is idempotent: running it again on the
resulting — in particular already-empty — task set succeeds and changes
nothing. -/
theorem clear_all_only_caller (db : DB) (cu : UserModel) :
    ∃ r db', clear_all_todos db cu = (r, db') ∧
      (∀ t ∈ db'.todos, t.user_id ≠ cu.id) ∧
      (∀ t ∈ db.todos, t.user_id ≠ cu.id → t ∈ db'.todos) ∧
      (∀ t ∈ db'.todos, t ∈ db.todos) ∧
      clear_all_todos db' cu = (r, db') := by
  refine ⟨_, _, rfl, ?_, ?_, ?_, ?_⟩
  · intro t ht
    have := (List.mem_filter.mp ht).2
    simpa using this
  · intro t ht hne
    exact List.mem_filter.mpr ⟨ht, by simpa using hne⟩
  · intro t ht
    exact (List.mem_filter.mp ht).1
  · exact clear_all_fixpoint _ cu
      (fun t ht => by simpa using (List.mem_filter.mp ht).2)

/-- C7 fails as stated: the response of `clear_all` does not carry the
number of removed tasks.  Clearing `dbSample` as alice removes two tasks,
clearing the resulting state removes zero, yet both calls return the very
same response. -/
theorem clear_all_count_counterexample :
    ((clear_all_todos dbSample alice).2.todos.length + 2 =
       dbSample.todos.length ∧
     (clear_all_todos (clear_all_todos dbSample alice).2 alice).2.todos =
       (clear_all_todos dbSample alice).2.todos) ∧
    (clear_all_todos dbSample alice).1 =
      (clear_all_todos (clear_all_todos dbSample alice).2 alice).1 := by
  decide

/-- C7 amended: `clear_all` removes every task owned by the acting identity
but returns only the fixed message `"All TODOs cleared"`; the count of
removed tasks is not part of the response. -/
theorem clear_all_fixed_message (db : DB) (cu : UserModel) :
    (clear_all_todos db cu).1 = { message := "All TODOs cleared" } := rfl

/-- C8: `register` fails with `Conflict` (HTTP 400) when the requested
username or email is already present, leaving the user table unchanged; in
particular after any successful registration, a second registration with
the same username fails with `Conflict` and stores nothing. -/
theorem register_conflict (user : UserCreate) (db : DB) :
    ((∃ u ∈ db.users, u.username = user.username ∨ u.email = user.email) →
      ∃ d, register user db = (.error (.Conflict d), db)) ∧
    (∀ nu db', register user db = (.ok nu, db') →
      ∀ user2 : UserCreate, user2.username = user.username →
        register user2 db' =
          (.error (.Conflict "Username already registered"), db')) := by
  constructor
  · rintro ⟨u, hu, hdup⟩
    by_cases hname :
        (db.users.find? (fun v => v.username == user.username)).isSome = true
    · exact ⟨"Username already registered", by rw [register, if_pos hname]⟩
    · have hemail :
          (db.users.find? (fun v => v.email == user.email)).isSome = true := by
        rcases hdup with hd | hd
        · exact absurd (List.find?_isSome.mpr ⟨u, hu, by simp [hd]⟩) hname
        · exact List.find?_isSome.mpr ⟨u, hu, by simp [hd]⟩
      exact ⟨"Email already registered",
        by rw [register, if_neg hname, if_pos hemail]⟩
  · intro nu db' hok user2 hname2
    by_cases hname :
        (db.users.find? (fun v => v.username == user.username)).isSome = true
    · rw [register, if_pos hname] at hok
      simp at hok
    · by_cases hemail :
          (db.users.find? (fun v => v.email == user.email)).isSome = true
      · rw [register, if_neg hname, if_pos hemail] at hok
        simp at hok
      · rw [register, if_neg hname, if_neg hemail] at hok
        set nu' : UserModel := ⟨db.next_user_id, user.username, user.email,
          get_password_hash user.password⟩ with hnu'
        have hdb' : db' =
            { db with users := db.users ++ [nu'],
                      next_user_id := db.next_user_id + 1 } :=
          (congrArg Prod.snd hok).symm
        have hmem2 : (db'.users.find?
            (fun v => v.username == user2.username)).isSome = true := by
          apply List.find?_isSome.mpr
          refine ⟨nu', ?_, by simp [hnu', hname2]⟩
          rw [hdb']
          exact List.mem_append_right _ (List.mem_singleton.mpr rfl)
        rw [register, if_pos hmem2]

theorem register_conflict_witness :
    (∃ u ∈ dbSample.users, u.username = "alice" ∨ u.email = "new@x.com") ∧
    ∃ d, register ⟨"alice", "new@x.com", "pw"⟩ dbSample =
      (.error (.Conflict d), dbSample) :=
  ⟨⟨alice, by decide, Or.inl (by decide)⟩,
   (register_conflict ⟨"alice", "new@x.com", "pw"⟩ dbSample).1
     ⟨alice, by decide, Or.inl (by decide)⟩⟩

/-- C9 fails as stated: pydantic's `title: str` accepts the empty string,
so `create` with `title = ""` does not raise `ValidationError` — it stores
a task whose title is the empty string. -/
theorem create_empty_title_counterexample :
    (post_todos { title := some "" } dbSample alice 12).1 ≠
      Except.error ApiError.ValidationError ∧
    (post_todos { title := some "" } dbSample alice 12).1 =
      .ok ⟨3, "", none, false, 12, 1⟩ ∧
    (⟨3, "", none, false, 12, 1⟩ : TodoModel) ∈
      (post_todos { title := some "" } dbSample alice 12).2.todos := by
  refine ⟨?_, rfl, ?_⟩
  · intro h
    cases h
  · decide

/-- C9 amended: `create` fails with `ValidationError` exactly when the
`title` field is missing from the request body (it is the required field),
and no task is stored on that failure; an empty-string title, by contrast,
passes validation. -/
theorem create_missing_title_rejected (body : TodoBody) (db : DB)
    (cu : UserModel) (now : Nat) (h : body.title = none) :
    post_todos body db cu now = (.error .ValidationError, db) := by
  rw [post_todos, validateTodoBase, h]

theorem create_missing_title_rejected_witness :
    (({} : TodoBody).title = none) ∧
    post_todos {} dbSample alice 12 =
      (.error .ValidationError, dbSample) :=
  ⟨rfl, create_missing_title_rejected {} dbSample alice 12 rfl⟩

end TodoApi
